import Mathlib

/-!
Verification development for the audio playback/caching subsystem of the
TinyTales repository (story display component, Gemini speech service glue,
and PCM audio utilities).

The embedding covers:
* `decodeAudioData` and `playPCM` from the audio utilities module,
* the `loadAudio` cache/dedup helper, the story-reset effect, the prefetch
  effect and `handleSpeak` from the story display component.

JavaScript builtins are embedded by their standardized semantics:
* `new Int16Array(buffer)` throws a `RangeError` when the byte length is not
  a multiple of 2 (ECMAScript TypedArray constructor), otherwise views the
  bytes as signed 16-bit little-endian integers;
* `ctx.createBuffer(numberOfChannels, length, sampleRate)` throws a
  `NotSupportedError` when an argument is zero, negative, or outside its
  nominal range (Web Audio API); the nominal ranges used here are the
  baseline the Web Audio specification requires every implementation to
  support: 1–32 channels and sample rates 8000–96000 Hz; the WebIDL
  `unsigned long` conversion truncates the (possibly fractional) `length`
  argument toward zero.
All such rejections surface to the caller of the async wrapper as a rejected
operation, which the specification collectively calls `DecodeError`.
-/

/-- Interpretation of two consecutive bytes (low byte first) as a signed
16-bit little-endian integer, as an `Int16Array` element. -/
def int16OfBytes (lo hi : Nat) : Int :=
  let v : Nat := lo % 256 + 256 * (hi % 256)
  if v < 32768 then (v : Int) else (v : Int) - 65536

/-- The `Int16Array` view of a byte buffer: consecutive byte pairs become
signed little-endian 16-bit samples.  A trailing odd byte never occurs in
`decodeAudioData` because the constructor rejects odd lengths first. -/
def int16Samples : List Nat → List Int
  | lo :: hi :: rest => int16OfBytes lo hi :: int16Samples rest
  | _ => []

/-- The single error kind of the decode path: any rejection raised while
decoding (the `RangeError` of the `Int16Array` constructor or the
`NotSupportedError` of `createBuffer`), called `DecodeError` by the spec. -/
inductive DecodeError
  | decodeError
deriving DecidableEq

/-- Model of the `AudioBuffer` produced by `ctx.createBuffer` and filled by
the decode loop: per-channel lists of normalized rational samples. -/
structure AudioBufferModel where
  numberOfChannels : Nat
  sampleRate : ℚ
  channels : List (List ℚ)
deriving DecidableEq

/-- Shallow embedding of `decodeAudioData(data, ctx, sampleRate, numChannels)`
from the audio utilities module:

* `new Int16Array(data.buffer)` — rejects when the byte length is odd,
  otherwise yields `int16Samples data`;
* `frameCount = dataInt16.length / numChannels`;
* `ctx.createBuffer(numChannels, frameCount, sampleRate)` — rejects when the
  channel count is outside 1–32 (a negative JS number converts to a huge
  `unsigned long`, and 0 channels or the `Infinity`/`NaN` frame count from
  dividing by 0 convert to invalid arguments), when the truncated frame
  count is 0, or when the sample rate lies outside the supported range
  8000–96000; otherwise the buffer has `dataInt16.length / numChannels`
  frames (truncated — the JS fill loop's writes past the truncated length
  are silently ignored by the `Float32Array`);
* the fill loop sets `channelData[i] = dataInt16[i * numChannels + channel]
  / 32768.0` for every channel and frame of the created buffer. -/
def decodeAudioData (data : List Nat) (sampleRate : ℚ) (numChannels : Int) :
    Except DecodeError AudioBufferModel :=
  if data.length % 2 ≠ 0 then .error .decodeError
  else
    let dataInt16 := int16Samples data
    if numChannels < 1 ∨ 32 < numChannels then .error .decodeError
    else
      let c := numChannels.toNat
      let frameCount := dataInt16.length / c
      if frameCount = 0 ∨ sampleRate < 8000 ∨ 96000 < sampleRate then .error .decodeError
      else
        .ok { numberOfChannels := c
              sampleRate := sampleRate
              channels := (List.range c).map fun ch =>
                (List.range frameCount).map fun i =>
                  ((dataInt16.getD (i * c + ch) 0 : Int) : ℚ) / 32768 }

/-- The completion signal of a playback: the promise `playPCM` returns
resolves (with no payload) when the buffer source fires `onended`. -/
inductive PlaybackSignal
  | ended
deriving DecidableEq

/-- Shallow embedding of `playPCM(base64, audioContext)` from the audio
utilities module.  The `atob` call and the `charCodeAt` loop convert the
base64 input into a byte array; the embedding takes that byte list directly
(base64 decoding is a JS builtin and a bijection onto byte strings, with the
empty string mapping to the empty buffer).  The function decodes the bytes
at the fixed 24000 Hz mono configuration, schedules the buffer on the
context's destination, and resolves when playback ends; a decode rejection
propagates out of the `await` as a rejection of `playPCM` itself. -/
def playPCM (bytes : List Nat) : Except DecodeError PlaybackSignal :=
  match decodeAudioData bytes 24000 1 with
  | .error e => .error e
  | .ok _ => .ok .ended

theorem int16Samples_length (l : List Nat) : (int16Samples l).length = l.length / 2 := by
  match l with
  | [] => simp [int16Samples]
  | [x] => simp [int16Samples]
  | lo :: hi :: rest =>
      have ih := int16Samples_length rest
      simp only [int16Samples, List.length_cons, ih]
      omega

/-- Association-list lookup keyed like a JS object: `alookup k m` is
`m[k]`, with the most recent binding (consed at the head) shadowing older
ones, which models the overwrite semantics of `{...prev, [k]: v}`. -/
def alookup {α β : Type} [DecidableEq α] (k : α) : List (α × β) → Option β
  | [] => none
  | (a, b) :: t => if a = k then some b else alookup k t

/-- Truthiness of `audioCache[text]` in `if (audioCache[text])`: the key is
present and its value is a non-empty string. -/
def truthyS : Option String → Bool
  | none => false
  | some s => if s = "" then false else true

/-- The state of the story display component's audio subsystem:

* `audioCache` — the `audioCache` React state, text to base64 audio;
* `promiseMap` — `speechPromiseMap.current`, text to the promise of its
  fetch (promises are named by allocation order, `nextPid` is fresh);
* `pending` — the not-yet-settled `generateSpeech` promises together with
  the text captured by their `.then` continuation;
* `resolved` — the value each settled promise resolved with
  (`generateSpeech` never rejects: it catches every error and resolves
  `null`, so a resolution carries an `Option String`);
* `fetchLog` — the calls made to the external collaborator
  `generateSpeech`, in order. -/
structure SpeechState where
  audioCache : List (String × String)
  promiseMap : List (String × Nat)
  pending : List (Nat × String)
  resolved : List (Nat × Option String)
  nextPid : Nat
  fetchLog : List String
deriving DecidableEq

/-- The component's state right after mounting: both maps empty, nothing
pending, nothing fetched. -/
def initState : SpeechState :=
  { audioCache := [], promiseMap := [], pending := [], resolved := [],
    nextPid := 0, fetchLog := [] }

/-- What one `loadAudio(text)` invocation returns to its caller:
the cached base64 value, the shared promise of an earlier in-flight or
settled request, or the freshly started request's own promise. -/
inductive LoadResult
  | cachedHit (value : String)
  | joined (pid : Nat)
  | started (pid : Nat)
deriving DecidableEq

/-- Steps 2–3 of `loadAudio` once the cache check has not returned: check
`speechPromiseMap.current[text]` and return the shared promise if present;
otherwise call `generateSpeech(text)` and register the resulting promise in
the map before returning it.  The body of `loadAudio` up to and including
the registration contains no `await`, so it runs as one synchronous step of
the event loop. -/
def loadAudioMiss (text : String) (s : SpeechState) : LoadResult × SpeechState :=
  match alookup text s.promiseMap with
  | some pid => (.joined pid, s)
  | none =>
      (.started s.nextPid,
        { s with
          promiseMap := (text, s.nextPid) :: s.promiseMap,
          pending := (s.nextPid, text) :: s.pending,
          nextPid := s.nextPid + 1,
          fetchLog := s.fetchLog ++ [text] })

/-- Shallow embedding of the `loadAudio` helper of the story display
component: step 1 returns `audioCache[text]` when that lookup is truthy
(a present, non-empty string); otherwise steps 2–3 run (`loadAudioMiss`). -/
def loadAudio (text : String) (s : SpeechState) : LoadResult × SpeechState :=
  match alookup text s.audioCache with
  | some v => if v = "" then loadAudioMiss text s else (.cachedHit v, s)
  | none => loadAudioMiss text s

/-- The `.then` continuation attached to `generateSpeech(text)` in
`loadAudio`, run when that fetch settles with `v`: if the result is truthy
(non-null, non-empty) it is written into `audioCache` via the functional
update `setAudioCache(prev => ({...prev, [text]: base64}))`; the promise
then resolves with the result either way.  The continuation runs even for a
promise orphaned by a story reset, writing into the current cache.  A pid
that is not pending settles nothing. -/
def resolveFetch (pid : Nat) (v : Option String) (s : SpeechState) : SpeechState :=
  match alookup pid s.pending with
  | none => s
  | some text =>
      { s with
        pending := s.pending.filter (fun p => p.1 != pid),
        resolved := (pid, v) :: s.resolved,
        audioCache :=
          match v with
          | some b => if b = "" then s.audioCache else (text, b) :: s.audioCache
          | none => s.audioCache }

/-- The story-reset effect of the story display component (the `useEffect`
keyed on the `story` prop): `setAudioCache({})` and
`speechPromiseMap.current = {}` clear both maps in the one synchronous run
of the effect body (it also re-syncs `localStory` and leaves edit mode,
which are outside this state).  Orphaned pending promises and the log of
already-issued fetches survive. -/
def storyResetEffect (s : SpeechState) : SpeechState :=
  { s with audioCache := [], promiseMap := [] }

/-- The events the audio subsystem's state reacts to: a caller invoking
`loadAudio`, a `generateSpeech` promise settling, or a story change. -/
inductive SpeechEvent
  | load (text : String)
  | resolve (pid : Nat) (v : Option String)
  | storyReset
deriving DecidableEq

/-- One event's effect on the state. -/
def speechStep (s : SpeechState) : SpeechEvent → SpeechState
  | .load t => (loadAudio t s).2
  | .resolve pid v => resolveFetch pid v s
  | .storyReset => storyResetEffect s

/-- A run of the subsystem over a list of events. -/
def speechRun (s : SpeechState) : List SpeechEvent → SpeechState
  | [] => s
  | e :: es => speechRun (speechStep s e) es

/-- `K` callers invoking `loadAudio text` back to back, with no fetch
resolution in between (the concurrent-callers scenario: each call's
synchronous body runs as one event-loop step). -/
def loadMany (text : String) : Nat → SpeechState → List LoadResult × SpeechState
  | 0, s => ([], s)
  | k + 1, s =>
      let first := loadAudio text s
      let rest := loadMany text k first.2
      (first.1 :: rest.1, rest.2)

/-- The number of outbound fetches for `text` currently in flight: pending
`generateSpeech` promises whose captured text is `text`. -/
def inFlightCount (text : String) (s : SpeechState) : Nat :=
  (s.pending.filter (fun p => p.2 == text)).length

/-- The `Keyword` record of the shared types module. -/
structure Keyword where
  cn : String
  en : String

/-- The `TeachingWord` record of the shared types module. -/
structure TeachingWord where
  en : String
  note : String

/-- The `StoryResponse` record of the shared types module. -/
structure StoryResponse where
  title : String
  english : List String
  chinese : List String
  keywords : List Keyword
  teaching_words : List TeachingWord
  parent_tips : List String

/-- The `textsToPreload` list built by the prefetch effect: all story
sentences in order, then the keyword terms, then the teaching-word terms. -/
def textsToPreload (story : StoryResponse) : List String :=
  story.english ++ story.keywords.map Keyword.en ++
    story.teaching_words.map TeachingWord.en

/-- The body of `prefetchAll`: iterate `textsToPreload`, skip falsy (empty)
texts (`if (!text) continue`), and fire `loadAudio(text)` for the rest
without awaiting any call — no resolve event interleaves, so the
synchronous bodies run back to back in list order. -/
def prefetchAll (story : StoryResponse) (s : SpeechState) : SpeechState :=
  (textsToPreload story).foldl
    (fun st t => if t = "" then st else (loadAudio t st).2) s

/-- The prefetch `useEffect` (keyed on `localStory` and `isEditing`): it
runs `prefetchAll` only when not in edit mode. -/
def prefetchEffect (story : StoryResponse) (isEditing : Bool) (s : SpeechState) :
    SpeechState :=
  if isEditing then s else prefetchAll story s

/-- The composite reaction to a story-identity change: the reset effect
clears both maps and leaves edit mode, after which the prefetch effect runs
with editing off. -/
def onStoryChange (story : StoryResponse) (s : SpeechState) : SpeechState :=
  prefetchAll story (storyResetEffect s)

/-- The two UI indicator states of the story display component. -/
structure UIState where
  loadingAudioIndex : Option Int
  speakingIndex : Option Int
deriving DecidableEq

/-- How one `handleSpeak` invocation ends: the empty-text early return, a
normal completion of the try/catch/finally (recording whether the catch
block logged an error), or a rejection escaping `handleSpeak` itself. -/
inductive SpeakOutcome
  | returnedEarly
  | completed (loggedError : Bool)
  | escaped
deriving DecidableEq

/-- Shallow embedding of `handleSpeak(text, index)` of the story display
component.  The outcomes of its three awaited stages are passed in
explicitly: `resume` is `audioContextRef.current.resume()` (run before the
try block when the context is suspended; a fresh or running context is
`.ok ()`), `fetched` is `await loadAudio(text)` (it resolves with the
base64 audio or null and, per the catch clause, could in principle reject),
and `play` is `await playPCM(base64, ctx)`.  The body:

* returns at once on empty text;
* a `resume` rejection happens before the try block, so it escapes with the
  indicators untouched;
* otherwise sets `loadingAudioIndex`, awaits the fetch, on truthy audio
  clears the spinner, sets `speakingIndex` and awaits playback; the catch
  block logs any error of those awaited stages, and the finally block sets
  both indicators to null on every path through the try. -/
def handleSpeak (text : String) (index : Int)
    (resume : Except String Unit)
    (fetched : Except String (Option String))
    (play : String → Except String Unit)
    (ui : UIState) : UIState × SpeakOutcome :=
  if text = "" then (ui, .returnedEarly)
  else
    match resume with
    | .error _ => (ui, .escaped)
    | .ok _ =>
        let ui1 : UIState := { ui with loadingAudioIndex := some index }
        match fetched with
        | .error _ =>
            let uiF : UIState := { ui1 with loadingAudioIndex := none }
            ({ uiF with speakingIndex := none }, .completed true)
        | .ok none =>
            let uiF : UIState := { ui1 with loadingAudioIndex := none }
            ({ uiF with speakingIndex := none }, .completed false)
        | .ok (some b) =>
            if b = "" then
              let uiF : UIState := { ui1 with loadingAudioIndex := none }
              ({ uiF with speakingIndex := none }, .completed false)
            else
              let ui2 : UIState := { ui1 with loadingAudioIndex := none }
              let ui3 : UIState := { ui2 with speakingIndex := some index }
              match play b with
              | .error _ =>
                  let uiF : UIState := { ui3 with loadingAudioIndex := none }
                  ({ uiF with speakingIndex := none }, .completed true)
              | .ok _ =>
                  let uiF : UIState := { ui3 with loadingAudioIndex := none }
                  ({ uiF with speakingIndex := none }, .completed false)

deriving instance DecidableEq for Except

theorem map_range_getD {β : Type} (f : Nat → β) (n i : Nat) (d : β) (h : i < n) :
    ((List.range n).map f).getD i d = f i := by
  rw [List.getD_eq_getElem?_getD, List.getElem?_map, List.getElem?_range h]
  rfl

theorem decodeAudioData_at_testbytes (sr2 : ℚ) (h8 : 8000 ≤ sr2) (h96 : sr2 ≤ 96000) :
    decodeAudioData [0x00, 0x80, 0xFF, 0x7F] sr2 1 =
      .ok ⟨1, sr2, [[-1, 32767/32768]]⟩ := by
  have h1 : ¬ (([0x00, 0x80, 0xFF, 0x7F] : List Nat).length % 2 ≠ 0) := by decide
  have h2 : ¬ ((1 : Int) < 1 ∨ 32 < (1 : Int)) := by decide
  simp only [decodeAudioData, if_neg h1, if_neg h2]
  have h3 : ¬ ((int16Samples [0x00, 0x80, 0xFF, 0x7F]).length / (1 : Int).toNat = 0 ∨
      sr2 < 8000 ∨ 96000 < sr2) := by
    push_neg
    exact ⟨by decide, h8, h96⟩
  rw [if_neg h3]
  have hch : ((List.range (1 : Int).toNat).map fun ch =>
      (List.range ((int16Samples [0x00, 0x80, 0xFF, 0x7F]).length / (1 : Int).toNat)).map
        fun i => ((int16Samples [0x00, 0x80, 0xFF, 0x7F]).getD (i * (1 : Int).toNat + ch) 0 : ℚ)
          / 32768) = [[-1, 32767/32768]] := by
    norm_num [int16Samples, int16OfBytes, List.range_succ, List.getD]
  simp only [hch]
  norm_num

/-- C4: the decoder reads the bytes as signed 16-bit little-endian integers,
uses `frameCount = totalSampleCount / channelCount`, and fills decoded
sample `[c][i] = rawSample[i * channelCount + c] / 32768`; decoding the
bytes `[0x00, 0x80, 0xFF, 0x7F]` as mono at any supported sample rate gives
a 2-frame buffer with values `-1` and `32767/32768`. -/
theorem decodeAudioData_sample_law (data : List Nat) (sr : ℚ) (nc : Int)
    (buf : AudioBufferModel) (h : decodeAudioData data sr nc = .ok buf)
    (c i : Nat) (hc : c < buf.numberOfChannels)
    (hi : i < (int16Samples data).length / buf.numberOfChannels) :
    buf.numberOfChannels = nc.toNat ∧
    buf.channels.length = buf.numberOfChannels ∧
    (buf.channels.getD c []).length = (int16Samples data).length / buf.numberOfChannels ∧
    (buf.channels.getD c []).getD i 0 =
      (((int16Samples data).getD (i * buf.numberOfChannels + c) 0 : Int) : ℚ) / 32768 ∧
    (∀ sr2 : ℚ, 8000 ≤ sr2 → sr2 ≤ 96000 →
      decodeAudioData [0x00, 0x80, 0xFF, 0x7F] sr2 1 =
        .ok ⟨1, sr2, [[-1, 32767/32768]]⟩) := by
  revert hc hi
  simp only [decodeAudioData] at h
  split_ifs at h with h1 h2 h3
  injection h with h
  subst h
  intro hc hi
  refine ⟨rfl, by simp, ?_, ?_, fun sr2 h8 h96 => decodeAudioData_at_testbytes sr2 h8 h96⟩
  · rw [map_range_getD _ _ _ _ hc]
    simp
  · rw [map_range_getD _ _ _ _ hc, map_range_getD _ _ _ _ hi]

/-- Witness for C4 at the spec's test vector: the 4 bytes decode mono at
24000 Hz to two frames, and frame 1 of channel 0 is `32767/32768`. -/
theorem decodeAudioData_sample_law_witness :
    decodeAudioData [0x00, 0x80, 0xFF, 0x7F] 24000 1 =
      .ok ⟨1, 24000, [[-1, 32767/32768]]⟩ ∧
    (([[-1, 32767/32768]] : List (List ℚ)).getD 0 []).getD 1 0 =
      (((int16Samples [0x00, 0x80, 0xFF, 0x7F]).getD (1 * 1 + 0) 0 : Int) : ℚ) / 32768 := by
  have hok : decodeAudioData [0x00, 0x80, 0xFF, 0x7F] 24000 1 =
      .ok ⟨1, 24000, [[-1, 32767/32768]]⟩ :=
    decodeAudioData_at_testbytes 24000 (by norm_num) (by norm_num)
  have h := decodeAudioData_sample_law [0x00, 0x80, 0xFF, 0x7F] 24000 1
    ⟨1, 24000, [[-1, 32767/32768]]⟩ hok 0 1 (by decide) (by decide)
  exact ⟨hok, h.2.2.2.1⟩

/-- C5 counterexample: the claim says the decoder fails whenever the
`sampleRate` argument is not a positive integer, but the sample rate is a
WebIDL `float`: at the fractional rate `48001/2 = 24000.5`, which is no
integer at all, decoding two zero bytes mono succeeds. -/
theorem decodeAudioData_fractional_rate_ok :
    decodeAudioData [0, 0] ((48001 : ℚ) / 2) 1 =
      .ok ⟨1, (48001 : ℚ) / 2, [[0]]⟩ ∧
    ¬ ∃ k : Int, ((48001 : ℚ) / 2) = (k : ℚ) := by
  constructor
  · have h1 : ¬ (([0, 0] : List Nat).length % 2 ≠ 0) := by decide
    have h2 : ¬ ((1 : Int) < 1 ∨ 32 < (1 : Int)) := by decide
    simp only [decodeAudioData, if_neg h1, if_neg h2]
    have h3 : ¬ ((int16Samples [0, 0]).length / (1 : Int).toNat = 0 ∨
        (48001 : ℚ) / 2 < 8000 ∨ 96000 < (48001 : ℚ) / 2) := by
      push_neg
      exact ⟨by decide, by norm_num, by norm_num⟩
    rw [if_neg h3]
    have hch : ((List.range (1 : Int).toNat).map fun ch =>
        (List.range ((int16Samples [0, 0]).length / (1 : Int).toNat)).map
          fun i => ((int16Samples [0, 0]).getD (i * (1 : Int).toNat + ch) 0 : ℚ)
            / 32768) = [[0]] := by
      norm_num [int16Samples, int16OfBytes, List.range_succ, List.getD]
    simp only [hch]
    norm_num
  · rintro ⟨k, hk⟩
    have h2 : (48001 : ℚ) = 2 * (k : ℚ) := by
      field_simp at hk
      linarith
    have h3 : (48001 : Int) = 2 * k := by exact_mod_cast h2
    omega

/-- C5 amended: the decoder rejects exactly when the byte length is odd,
the channel count lies outside the supported 1–32, the sample count
`byteLength / 2` is smaller than the channel count (a zero frame count), or
the sample rate lies outside the supported 8000–96000 range; in particular
an odd byte length always rejects.  A fractional sample rate inside the
supported range is accepted. -/
theorem decodeAudioData_error_iff (data : List Nat) (sr : ℚ) (nc : Int) :
    decodeAudioData data sr nc = .error .decodeError ↔
      (data.length % 2 ≠ 0 ∨ nc < 1 ∨ 32 < nc ∨ data.length / 2 < nc.toNat ∨
        sr < 8000 ∨ 96000 < sr) := by
  simp only [decodeAudioData]
  split_ifs with h1 h2 h3
  · exact iff_of_true rfl (Or.inl h1)
  · rcases h2 with h | h
    · exact iff_of_true rfl (Or.inr (Or.inl h))
    · exact iff_of_true rfl (Or.inr (Or.inr (Or.inl h)))
  · push_neg at h2
    have hpos : 0 < nc.toNat := by omega
    rcases h3 with h | h | h
    · rw [Nat.div_eq_zero_iff hpos, int16Samples_length] at h
      exact iff_of_true rfl (Or.inr (Or.inr (Or.inr (Or.inl h))))
    · exact iff_of_true rfl (Or.inr (Or.inr (Or.inr (Or.inr (Or.inl h)))))
    · exact iff_of_true rfl (Or.inr (Or.inr (Or.inr (Or.inr (Or.inr h)))))
  · push_neg at h2 h3
    refine iff_of_false (by simp) ?_
    rintro (h | h | h | h | h | h)
    · exact h1 h
    · omega
    · omega
    · have hlen := int16Samples_length data
      exact h3.1 ((Nat.div_eq_zero_iff (by omega : 0 < nc.toNat)).mpr (by omega))
    · exact absurd h (not_lt.mpr h3.2.1)
    · exact absurd h (not_lt.mpr h3.2.2)

/-- C6 counterexample: the input that decodes to a zero-frame buffer is the
empty byte array (the empty base64 string), and `playPCM` on it rejects
with the decode error instead of resolving its completion signal, because
`createBuffer` refuses a zero frame count. -/
theorem playPCM_empty_rejects : playPCM [] = .error .decodeError := by
  have h : decodeAudioData [] 24000 1 = .error .decodeError := by
    simp only [decodeAudioData]
    rw [if_neg (by decide), if_neg (by decide), if_pos (Or.inl (by decide))]
  simp only [playPCM, h]

/-- C6 amended: `playPCM` resolves its completion signal exactly when the
decode step succeeds, and a successful decode always yields at least one
frame — so no input decodes to a zero-frame buffer, and on the empty input
(whose buffer would have zero frames) `playPCM` rejects rather than
resolving. -/
theorem playPCM_ok_iff_decode_ok (bytes : List Nat) :
    ((playPCM bytes = .ok .ended) ↔
      ¬ (decodeAudioData bytes 24000 1 = .error .decodeError)) ∧
    (∀ buf : AudioBufferModel, decodeAudioData bytes 24000 1 = .ok buf →
      0 < (buf.channels.getD 0 []).length) := by
  constructor
  · match hdec : decodeAudioData bytes 24000 1 with
    | .error e =>
        cases e
        simp [playPCM, hdec]
    | .ok buf =>
        simp [playPCM, hdec]
  · intro buf h
    simp only [decodeAudioData] at h
    split_ifs at h with h1 h2 h3
    injection h with h
    subst h
    push_neg at h3
    rw [map_range_getD _ _ _ _ (by omega : 0 < (1 : Int).toNat)]
    simp only [List.length_map, List.length_range]
    exact Nat.pos_of_ne_zero h3.1

theorem loadAudio_of_uncached (text : String) (s : SpeechState)
    (hc : alookup text s.audioCache = none) :
    loadAudio text s = loadAudioMiss text s := by
  simp [loadAudio, hc]

theorem loadAudio_joined (text : String) (s : SpeechState) (pid : Nat)
    (hc : alookup text s.audioCache = none)
    (hm : alookup text s.promiseMap = some pid) :
    loadAudio text s = (.joined pid, s) := by
  simp [loadAudio, hc, loadAudioMiss, hm]

theorem loadAudio_started (text : String) (s : SpeechState)
    (hc : alookup text s.audioCache = none)
    (hm : alookup text s.promiseMap = none) :
    loadAudio text s = (.started s.nextPid,
      { s with
        promiseMap := (text, s.nextPid) :: s.promiseMap,
        pending := (s.nextPid, text) :: s.pending,
        nextPid := s.nextPid + 1,
        fetchLog := s.fetchLog ++ [text] }) := by
  simp [loadAudio, hc, loadAudioMiss, hm]

theorem count_append_singleton (l : List String) (t T : String) :
    (l ++ [t]).count T = l.count T + if t = T then 1 else 0 := by
  simp [List.count_append, List.count_singleton']

theorem loadAudio_state_cases (t : String) (s : SpeechState) :
    (loadAudio t s).2 = s ∨
    (alookup t s.promiseMap = none ∧
     (loadAudio t s).2.audioCache = s.audioCache ∧
     (loadAudio t s).2.promiseMap = (t, s.nextPid) :: s.promiseMap ∧
     (loadAudio t s).2.pending = (s.nextPid, t) :: s.pending ∧
     (loadAudio t s).2.fetchLog = s.fetchLog ++ [t]) := by
  cases hc : alookup t s.audioCache with
  | some v =>
      by_cases hv : v = ""
      · cases hm : alookup t s.promiseMap with
        | some pid =>
            left
            have h : loadAudio t s = (.joined pid, s) := by
              simp [loadAudio, hc, hv, loadAudioMiss, hm]
            rw [h]
        | none =>
            right
            have h : loadAudio t s = (.started s.nextPid,
                { s with
                  promiseMap := (t, s.nextPid) :: s.promiseMap,
                  pending := (s.nextPid, t) :: s.pending,
                  nextPid := s.nextPid + 1,
                  fetchLog := s.fetchLog ++ [t] }) := by
              simp [loadAudio, hc, hv, loadAudioMiss, hm]
            rw [h]
            exact ⟨rfl, rfl, rfl, rfl, rfl⟩
      · left
        have h : loadAudio t s = (.cachedHit v, s) := by
          simp [loadAudio, hc, hv]
        rw [h]
  | none =>
      cases hm : alookup t s.promiseMap with
      | some pid =>
          left
          rw [loadAudio_joined t s pid hc hm]
      | none =>
          right
          rw [loadAudio_started t s hc hm]
          exact ⟨rfl, rfl, rfl, rfl, rfl⟩

theorem resolveFetch_promiseMap (pid : Nat) (v : Option String) (s : SpeechState) :
    (resolveFetch pid v s).promiseMap = s.promiseMap := by
  unfold resolveFetch
  cases h : alookup pid s.pending <;> rfl

theorem resolveFetch_fetchLog (pid : Nat) (v : Option String) (s : SpeechState) :
    (resolveFetch pid v s).fetchLog = s.fetchLog := by
  unfold resolveFetch
  cases h : alookup pid s.pending <;> rfl

theorem speechRun_count_of_inflight (T : String) (pid : Nat) :
    ∀ (evs : List SpeechEvent) (s : SpeechState),
      (∀ e ∈ evs, e ≠ SpeechEvent.storyReset) →
      alookup T s.promiseMap = some pid →
      (speechRun s evs).fetchLog.count T = s.fetchLog.count T ∧
      alookup T (speechRun s evs).promiseMap = some pid
  | [], s, _, h => ⟨rfl, h⟩
  | e :: es, s, hnr, h => by
      have hnr2 : ∀ x ∈ es, x ≠ SpeechEvent.storyReset :=
        fun x hx => hnr x (List.mem_cons_of_mem _ hx)
      match e with
      | .storyReset => exact absurd rfl (hnr _ (List.mem_cons_self _ _))
      | .resolve pid2 v =>
          simp only [speechRun, speechStep]
          have hrec := speechRun_count_of_inflight T pid es (resolveFetch pid2 v s) hnr2
            (by rw [resolveFetch_promiseMap]; exact h)
          rw [hrec.1, resolveFetch_fetchLog]
          exact ⟨rfl, hrec.2⟩
      | .load t =>
          simp only [speechRun, speechStep]
          rcases loadAudio_state_cases t s with hsame | ⟨hm, _, hpm, _, hlog⟩
          · rw [hsame]
            exact speechRun_count_of_inflight T pid es s hnr2 h
          · have htT : t ≠ T := by
              intro hE
              rw [hE] at hm
              rw [hm] at h
              exact Option.noConfusion h
            have hpm2 : alookup T (loadAudio t s).2.promiseMap = some pid := by
              rw [hpm]
              simp only [alookup]
              rw [if_neg htT]
              exact h
            have hrec := speechRun_count_of_inflight T pid es (loadAudio t s).2 hnr2 hpm2
            rw [hrec.1, hlog, count_append_singleton, if_neg htT, add_zero]
            exact ⟨rfl, hrec.2⟩

theorem speechRun_count_le (T : String) :
    ∀ (evs : List SpeechEvent) (s : SpeechState),
      (∀ e ∈ evs, e ≠ SpeechEvent.storyReset) →
      (speechRun s evs).fetchLog.count T ≤ s.fetchLog.count T + 1
  | [], s, _ => Nat.le_succ _
  | e :: es, s, hnr => by
      have hnr2 : ∀ x ∈ es, x ≠ SpeechEvent.storyReset :=
        fun x hx => hnr x (List.mem_cons_of_mem _ hx)
      match e with
      | .storyReset => exact absurd rfl (hnr _ (List.mem_cons_self _ _))
      | .resolve pid2 v =>
          simp only [speechRun, speechStep]
          have hrec := speechRun_count_le T es (resolveFetch pid2 v s) hnr2
          rw [resolveFetch_fetchLog] at hrec
          exact hrec
      | .load t =>
          simp only [speechRun, speechStep]
          rcases loadAudio_state_cases t s with hsame | ⟨hm, _, hpm, _, hlog⟩
          · rw [hsame]
            exact speechRun_count_le T es s hnr2
          · by_cases htT : t = T
            · subst htT
              have hpm2 : alookup t (loadAudio t s).2.promiseMap = some s.nextPid := by
                rw [hpm]
                simp [alookup]
              have hrec := speechRun_count_of_inflight t s.nextPid es (loadAudio t s).2 hnr2 hpm2
              rw [hrec.1, hlog, count_append_singleton, if_pos rfl]
            · have hrec := speechRun_count_le T es (loadAudio t s).2 hnr2
              rw [hlog, count_append_singleton, if_neg htT, add_zero] at hrec
              exact hrec

theorem loadMany_joined (text : String) (pid : Nat) (s : SpeechState)
    (hc : alookup text s.audioCache = none)
    (hm : alookup text s.promiseMap = some pid) (k : Nat) :
    loadMany text k s = (List.replicate k (.joined pid), s) := by
  induction k with
  | zero => rfl
  | succ k ih =>
      have h1 : loadAudio text s = (.joined pid, s) := loadAudio_joined text s pid hc hm
      simp only [loadMany, h1, ih, List.replicate_succ]

/-- C1: on a state where `T` is neither cached nor in flight, `K ≥ 1`
callers invoking `loadAudio T` before the first fetch resolves make exactly
one call to the external fetch collaborator (`generateSpeech` is invoked
once, by the first caller), every caller holds the one shared promise
`s.nextPid`, exactly one outbound fetch for `T` is in flight at any point
of the sequence, and when that one promise settles every caller receives
its single resolved value. -/
theorem loadAudio_single_flight (T : String) (K : Nat) (s : SpeechState)
    (hK : 1 ≤ K)
    (hcache : alookup T s.audioCache = none)
    (hmap : alookup T s.promiseMap = none)
    (hflight : inFlightCount T s = 0) :
    (loadMany T K s).1 =
      .started s.nextPid :: List.replicate (K - 1) (.joined s.nextPid) ∧
    (loadMany T K s).2.fetchLog = s.fetchLog ++ [T] ∧
    inFlightCount T (loadMany T K s).2 = 1 ∧
    (∀ v, alookup s.nextPid
      (resolveFetch s.nextPid v (loadMany T K s).2).resolved = some v) := by
  obtain ⟨k, rfl⟩ : ∃ k, K = k + 1 := ⟨K - 1, by omega⟩
  have hstart := loadAudio_started T s hcache hmap
  have hrest := loadMany_joined T s.nextPid
    { s with
      promiseMap := (T, s.nextPid) :: s.promiseMap,
      pending := (s.nextPid, T) :: s.pending,
      nextPid := s.nextPid + 1,
      fetchLog := s.fetchLog ++ [T] }
    hcache (by simp [alookup]) k
  simp only [loadMany, hstart, hrest]
  refine ⟨by simp, trivial, ?_, ?_⟩
  · simp only [inFlightCount, List.filter_cons]
    simp only [inFlightCount] at hflight
    simp [hflight]
  · intro v
    simp [resolveFetch, alookup]

/-- Witness for C1: three concurrent callers for "hi" on the fresh state
share promise 0, one fetch is logged and in flight, and a resolution of
promise 0 hands every caller that value. -/
theorem loadAudio_single_flight_witness :
    (loadMany "hi" 3 initState).1 =
      .started 0 :: List.replicate 2 (.joined 0) ∧
    (loadMany "hi" 3 initState).2.fetchLog = [] ++ ["hi"] ∧
    inFlightCount "hi" (loadMany "hi" 3 initState).2 = 1 ∧
    (∀ v, alookup 0 (resolveFetch 0 v (loadMany "hi" 3 initState).2).resolved = some v) :=
  loadAudio_single_flight "hi" 3 initState (by decide) (by decide) (by decide) (by decide)

/-- C2 counterexample: `loadAudio` itself has no empty-text guard: invoked
with the empty string on the fresh state it misses the cache and the
in-flight map and calls the external fetch collaborator — the fetch log
records `generateSpeech("")` — whereas the claim says `obtain("")` never
calls the collaborator and returns without consulting the cache. -/
theorem loadAudio_empty_text_fetches :
    (loadAudio "" initState).1 = .started 0 ∧
    (loadAudio "" initState).2.fetchLog = [""] := by
  exact ⟨rfl, rfl⟩

theorem prefetch_fold_count_empty :
    ∀ (ts : List String) (s : SpeechState),
      ((ts.foldl (fun st t => if t = "" then st else (loadAudio t st).2) s)).fetchLog.count ""
        = s.fetchLog.count ""
  | [], s => rfl
  | t :: ts, s => by
      by_cases ht : t = ""
      · simp only [List.foldl, if_pos ht]
        exact prefetch_fold_count_empty ts s
      · simp only [List.foldl, if_neg ht]
        rw [prefetch_fold_count_empty ts (loadAudio t s).2]
        rcases loadAudio_state_cases t s with hsame | ⟨_, _, _, _, hlog⟩
        · rw [hsame]
        · rw [hlog, count_append_singleton, if_neg ht, add_zero]

/-- C2 amended: the empty-text no-op lives in the callers of `loadAudio`,
not in `loadAudio` itself: `handleSpeak` on empty text returns immediately
with the state untouched and no stage run, and the prefetch pass skips
empty texts, so the component never issues a fetch for the empty string —
even though a direct `loadAudio("")` would fetch. -/
theorem empty_text_guard_in_callers :
    (∀ (index : Int) (resume : Except String Unit)
        (fetched : Except String (Option String))
        (play : String → Except String Unit) (ui : UIState),
      handleSpeak "" index resume fetched play ui = (ui, .returnedEarly)) ∧
    (∀ (story : StoryResponse) (s : SpeechState),
      (prefetchAll story s).fetchLog.count "" = s.fetchLog.count "") := by
  constructor
  · intro index resume fetched play ui
    rfl
  · intro story s
    exact prefetch_fold_count_empty (textsToPreload story) s

/-- C3: the story-reset effect clears the cache map and the in-flight map
together in its one synchronous step, and afterwards `loadAudio T` for a
`T` that was cached before the reset misses both maps and starts a fresh
fetch, indistinguishable from a first-ever call: it returns the new
request's promise, appends `T` to the fetch log, and registers `T` as the
sole in-flight entry. -/
theorem storyReset_clears_both_maps (s : SpeechState) (T v : String)
    (hcached : alookup T s.audioCache = some v) :
    (storyResetEffect s).audioCache = [] ∧
    (storyResetEffect s).promiseMap = [] ∧
    (loadAudio T (storyResetEffect s)).1 = .started (storyResetEffect s).nextPid ∧
    (loadAudio T (storyResetEffect s)).2.fetchLog = s.fetchLog ++ [T] ∧
    (loadAudio T (storyResetEffect s)).2.promiseMap = [(T, s.nextPid)] := by
  have h := loadAudio_started T (storyResetEffect s) rfl rfl
  rw [h]
  exact ⟨rfl, rfl, rfl, rfl, rfl⟩

/-- Witness for C3 at a state holding one cached entry, one fetched text
and promise counter 5: the reset empties both maps and a reload of the
cached text starts promise 5 afresh. -/
theorem storyReset_clears_both_maps_witness :
    (storyResetEffect ⟨[("hi", "QUF")], [], [], [], 5, ["hi"]⟩).audioCache = [] ∧
    (storyResetEffect ⟨[("hi", "QUF")], [], [], [], 5, ["hi"]⟩).promiseMap = [] ∧
    (loadAudio "hi" (storyResetEffect ⟨[("hi", "QUF")], [], [], [], 5, ["hi"]⟩)).1 =
      .started (storyResetEffect ⟨[("hi", "QUF")], [], [], [], 5, ["hi"]⟩).nextPid ∧
    (loadAudio "hi" (storyResetEffect ⟨[("hi", "QUF")], [], [], [], 5, ["hi"]⟩)).2.fetchLog =
      ["hi"] ++ ["hi"] ∧
    (loadAudio "hi" (storyResetEffect ⟨[("hi", "QUF")], [], [], [], 5, ["hi"]⟩)).2.promiseMap =
      [("hi", 5)] :=
  storyReset_clears_both_maps ⟨[("hi", "QUF")], [], [], [], 5, ["hi"]⟩ "hi" "QUF" (by decide)

/-- C7 counterexample: after the fetch for "hi" fails (its promise resolves
null), a later `loadAudio "hi"` does not retry the fetch as the claim says:
it joins the already-resolved in-flight entry and the fetch log still
records exactly one collaborator call. -/
theorem loadAudio_no_retry_after_failure :
    (loadAudio "hi" (resolveFetch 0 none (loadAudio "hi" initState).2)).1 = .joined 0 ∧
    (loadAudio "hi" (resolveFetch 0 none (loadAudio "hi" initState).2)).2.fetchLog
      = ["hi"] := by
  exact ⟨rfl, rfl⟩

/-- C7 amended: when the fetch for `T` settles, a success with non-empty
audio is stored as the cache entry for `T`; a failure resolves the shared
promise to null without rejecting and creates no cache entry; but later
calls do not retry — the in-flight entry survives, so they join the
resolved-to-null promise and the fetch log does not grow — until the
story-change reset clears both maps, after which a call fetches afresh. -/
theorem loadAudio_fetch_settlement (s : SpeechState) (T : String) (pid : Nat)
    (hmap : alookup T s.promiseMap = some pid)
    (hpend : alookup pid s.pending = some T)
    (hcache : alookup T s.audioCache = none) :
    (∀ b : String, ¬ b = "" →
      alookup T (resolveFetch pid (some b) s).audioCache = some b) ∧
    alookup T (resolveFetch pid none s).audioCache = none ∧
    alookup pid (resolveFetch pid none s).resolved = some none ∧
    (loadAudio T (resolveFetch pid none s)).1 = .joined pid ∧
    (loadAudio T (resolveFetch pid none s)).2.fetchLog = s.fetchLog ∧
    (loadAudio T (storyResetEffect (resolveFetch pid none s))).1 =
      .started (resolveFetch pid none s).nextPid := by
  have hres : resolveFetch pid none s =
      { s with
        pending := s.pending.filter (fun p => p.1 != pid),
        resolved := (pid, none) :: s.resolved } := by
    unfold resolveFetch
    rw [hpend]
  have hjoin : loadAudio T (resolveFetch pid none s) = (.joined pid, resolveFetch pid none s) := by
    refine loadAudio_joined T _ pid ?_ ?_
    · rw [hres]
      exact hcache
    · rw [resolveFetch_promiseMap]
      exact hmap
  refine ⟨?_, ?_, ?_, ?_, ?_, ?_⟩
  · intro b hb
    unfold resolveFetch
    rw [hpend]
    simp only [if_neg hb]
    simp [alookup]
  · rw [hres]
    exact hcache
  · rw [hres]
    simp [alookup]
  · rw [hjoin]
  · rw [hjoin, resolveFetch_fetchLog]
  · rw [loadAudio_started T (storyResetEffect (resolveFetch pid none s)) rfl rfl]
    rfl

/-- Witness for C7's amended claim on the concrete run that fetched "hi"
first: promise 0 is the in-flight entry of "hi" and the settlement
properties hold there. -/
theorem loadAudio_fetch_settlement_witness :
    (∀ b : String, ¬ b = "" →
      alookup "hi" (resolveFetch 0 (some b) (loadAudio "hi" initState).2).audioCache
        = some b) ∧
    alookup "hi" (resolveFetch 0 none (loadAudio "hi" initState).2).audioCache = none ∧
    alookup 0 (resolveFetch 0 none (loadAudio "hi" initState).2).resolved = some none ∧
    (loadAudio "hi" (resolveFetch 0 none (loadAudio "hi" initState).2)).1 = .joined 0 ∧
    (loadAudio "hi" (resolveFetch 0 none (loadAudio "hi" initState).2)).2.fetchLog
      = (loadAudio "hi" initState).2.fetchLog ∧
    (loadAudio "hi" (storyResetEffect (resolveFetch 0 none (loadAudio "hi" initState).2))).1 =
      .started (resolveFetch 0 none (loadAudio "hi" initState).2).nextPid :=
  loadAudio_fetch_settlement (loadAudio "hi" initState).2 "hi" 0
    (by decide) (by decide) (by decide)

theorem prefetch_foldl_filter :
    ∀ (ts : List String) (s : SpeechState),
      ts.foldl (fun st t => if t = "" then st else (loadAudio t st).2) s =
        (ts.filter (fun t => !(t == ""))).foldl (fun st t => (loadAudio t st).2) s
  | [], s => rfl
  | t :: ts, s => by
      by_cases ht : t = ""
      · subst ht
        simp only [List.foldl, if_pos rfl, List.filter_cons]
        norm_num
        exact prefetch_foldl_filter ts s
      · have hb : (!(t == "")) = true := by simp [ht]
        simp only [List.foldl, if_neg ht, List.filter_cons, hb, if_pos rfl]
        exact prefetch_foldl_filter ts (loadAudio t s).2

/-- The spec's duplicate-sentence example story: two identical sentences,
no keywords or teaching words. -/
def catStory : StoryResponse :=
  { title := "Cat", english := ["A cat sat.", "A cat sat."],
    chinese := ["一只猫坐下。", "一只猫坐下。"],
    keywords := [], teaching_words := [], parent_tips := [] }

/-- C8: the story-change reaction resets the maps and then runs the
prefetch pass, which the edit-mode gate skips entirely when editing;
the pass fires `loadAudio` exactly once per non-empty text of the fixed
priority list — sentences in order, then keyword terms, then teaching-word
terms — in that order with no awaiting between calls; on the
duplicate-sentence story the shared text is fetched exactly once, and once
that single fetch resolves the sentence is speakable from the cache. -/
theorem prefetch_order_and_dedup :
    (∀ (story : StoryResponse) (s : SpeechState),
      prefetchEffect story true s = s) ∧
    (∀ (story : StoryResponse) (s : SpeechState),
      prefetchEffect story false s = prefetchAll story s) ∧
    (∀ (story : StoryResponse) (s : SpeechState),
      onStoryChange story s = prefetchAll story (storyResetEffect s)) ∧
    (∀ (story : StoryResponse) (s : SpeechState),
      prefetchAll story s =
        ((textsToPreload story).filter (fun t => !(t == ""))).foldl
          (fun st t => (loadAudio t st).2) s) ∧
    (prefetchAll catStory initState).fetchLog = ["A cat sat."] ∧
    (loadAudio "A cat sat."
      (resolveFetch 0 (some "UENN") (prefetchAll catStory initState))).1 =
        .cachedHit "UENN" := by
  refine ⟨fun story s => rfl, fun story s => rfl, fun story s => rfl,
    fun story s => prefetch_foldl_filter (textsToPreload story) s, ?_, ?_⟩
  · rfl
  · rfl

/-- C9: for a non-empty text and a resumable output context, `handleSpeak`
always ends with both UI indicators reset to null in the finally step,
whatever the fetch and playback outcomes — audio, null audio, or a
rejection of either stage; stage rejections are caught and logged and never
escape the call. -/
theorem handleSpeak_resets_indicators (text : String) (index : Int)
    (fetched : Except String (Option String)) (play : String → Except String Unit)
    (ui : UIState) (htext : ¬ text = "") :
    (handleSpeak text index (.ok ()) fetched play ui).1 = ⟨none, none⟩ ∧
    (handleSpeak text index (.ok ()) fetched play ui).2 ≠ .escaped ∧
    (∀ e, fetched = .error e →
      (handleSpeak text index (.ok ()) fetched play ui).2 = .completed true) ∧
    (∀ b e, fetched = .ok (some b) → ¬ b = "" → play b = .error e →
      (handleSpeak text index (.ok ()) fetched play ui).2 = .completed true) := by
  simp only [handleSpeak, if_neg htext]
  rcases fetched with e | ob
  · simp
  · rcases ob with _ | b
    · simp
    · by_cases hb : b = ""
      · simp only [hb, if_pos rfl]
        simp
        intro b2 e h1 h2
        exact absurd h1.symm h2
      · rcases hp : play b with e | u
        · simp [hb, hp]
        · simp [hb, hp]
          intro b2 e h1 h2
          rw [h1] at hp
          rw [hp]
          simp

/-- Witness for C9: a concrete successful run ("hi" at index 2, audio
"QUF", playback succeeding) resets both indicators from a dirty UI state
and does not escape. -/
theorem handleSpeak_resets_indicators_witness :
    (handleSpeak "hi" 2 (.ok ()) (.ok (some "QUF")) (fun b => .ok ())
        ⟨some 7, some 8⟩).1 = ⟨none, none⟩ ∧
    (handleSpeak "hi" 2 (.ok ()) (.ok (some "QUF")) (fun b => .ok ())
        ⟨some 7, some 8⟩).2 ≠ .escaped ∧
    (∀ e, (Except.ok (some "QUF") : Except String (Option String)) = .error e →
      (handleSpeak "hi" 2 (.ok ()) (.ok (some "QUF")) (fun b => .ok ())
        ⟨some 7, some 8⟩).2 = .completed true) ∧
    (∀ b e, (Except.ok (some "QUF") : Except String (Option String)) = .ok (some b) →
      ¬ b = "" → (fun b2 => (Except.ok () : Except String Unit)) b = .error e →
      (handleSpeak "hi" 2 (.ok ()) (.ok (some "QUF")) (fun b => .ok ())
        ⟨some 7, some 8⟩).2 = .completed true) :=
  handleSpeak_resets_indicators "hi" 2 (.ok (some "QUF")) (fun b => .ok ())
    ⟨some 7, some 8⟩ (by decide)

/-- C10: within one story lifetime — any event run from the fresh state
with no story-reset event — at most one fetch is ever issued for a text
`T`; a promise settling never removes its in-flight map entry; so after a
failed (null) settlement a later call joins the resolved promise, reading
its null value without a new fetch, and after a successful one it returns
the resolved audio from the cache, again without a new fetch; only the
story-reset effect clears the two maps. -/
theorem inflight_entry_never_pruned (T : String) (evs : List SpeechEvent)
    (hnr : ∀ e ∈ evs, e ≠ SpeechEvent.storyReset)
    (s : SpeechState) (pid : Nat) (b : String)
    (hmap : alookup T s.promiseMap = some pid)
    (hpend : alookup pid s.pending = some T)
    (hcache : alookup T s.audioCache = none)
    (hb : ¬ b = "") :
    (speechRun initState evs).fetchLog.count T ≤ 1 ∧
    (∀ (s2 : SpeechState) (pid2 : Nat) (v : Option String),
      (resolveFetch pid2 v s2).promiseMap = s2.promiseMap) ∧
    (loadAudio T (resolveFetch pid (some b) s)).1 = .cachedHit b ∧
    (loadAudio T (resolveFetch pid none s)).1 = .joined pid ∧
    alookup pid (resolveFetch pid none s).resolved = some none ∧
    (loadAudio T (resolveFetch pid none s)).2.fetchLog = s.fetchLog ∧
    (storyResetEffect s).promiseMap = [] ∧ (storyResetEffect s).audioCache = [] := by
  have hfail : resolveFetch pid none s =
      { s with
        pending := s.pending.filter (fun p => p.1 != pid),
        resolved := (pid, none) :: s.resolved } := by
    unfold resolveFetch
    rw [hpend]
  have hsucc : alookup T (resolveFetch pid (some b) s).audioCache = some b := by
    unfold resolveFetch
    rw [hpend]
    simp only [if_neg hb]
    simp [alookup]
  have hjoin : loadAudio T (resolveFetch pid none s) =
      (.joined pid, resolveFetch pid none s) := by
    refine loadAudio_joined T _ pid ?_ ?_
    · rw [hfail]
      exact hcache
    · rw [resolveFetch_promiseMap]
      exact hmap
  refine ⟨?_, ?_, ?_, ?_, ?_, ?_, rfl, rfl⟩
  · have h := speechRun_count_le T evs initState hnr
    simpa using h
  · intro s2 pid2 v
    exact resolveFetch_promiseMap pid2 v s2
  · unfold loadAudio
    rw [hsucc]
    simp only [if_neg hb]
  · rw [hjoin]
  · rw [hfail]
    simp [alookup]
  · rw [hjoin, resolveFetch_fetchLog]

/-- Witness for C10 on the concrete trace that fetches "hi", fails it, and
reloads: the fetch count stays one and the settlement facts hold at promise
0 of the state after the first call. -/
theorem inflight_entry_never_pruned_witness :
    (speechRun initState
      [.load "hi", .resolve 0 none, .load "hi"]).fetchLog.count "hi" ≤ 1 ∧
    (∀ (s2 : SpeechState) (pid2 : Nat) (v : Option String),
      (resolveFetch pid2 v s2).promiseMap = s2.promiseMap) ∧
    (loadAudio "hi" (resolveFetch 0 (some "QUF") (loadAudio "hi" initState).2)).1 =
      .cachedHit "QUF" ∧
    (loadAudio "hi" (resolveFetch 0 none (loadAudio "hi" initState).2)).1 = .joined 0 ∧
    alookup 0 (resolveFetch 0 none (loadAudio "hi" initState).2).resolved = some none ∧
    (loadAudio "hi" (resolveFetch 0 none (loadAudio "hi" initState).2)).2.fetchLog =
      (loadAudio "hi" initState).2.fetchLog ∧
    (storyResetEffect (loadAudio "hi" initState).2).promiseMap = [] ∧
    (storyResetEffect (loadAudio "hi" initState).2).audioCache = [] :=
  inflight_entry_never_pruned "hi" [.load "hi", .resolve 0 none, .load "hi"]
    (by decide) (loadAudio "hi" initState).2 0 "QUF"
    (by decide) (by decide) (by decide) (by decide)
